import Mathlib

/-!
Shallow embedding of `src/vistools/backend/mpl/cross_section_2d.py`.

Images (2D numpy arrays) are modelled as lists of rows of rationals;
numpy floats are modelled by `ℚ`, which is exact for every operation the
file performs (min, max, linear-interpolated percentile).  The mutable
`CrossSection2DView` object is modelled as a `ViewState` record, and each
method as a function `ViewState → ... → ViewState`.  Matplotlib artists
are represented by the fields of theirs that the source reads or writes:
the image's color limits, the side axes' x/y limits, and the cut lines'
data and visibility.  Blitting (`copy_from_bbox` / `restore_region` /
`blit`) is pure drawing and keeps no state the source ever branches on,
so it has no counterpart in the state.
-/

/-- A 2D image: a list of rows. -/
abbrev Image := List (List ℚ)

/-- Model of `np.min` on the flattened elements (numpy raises on an empty
array; theorems about this definition carry a nonemptiness hypothesis). -/
def npMin : List ℚ → ℚ
  | [] => 0
  | x :: xs => xs.foldl min x

/-- Model of `np.max` on the flattened elements. -/
def npMax : List ℚ → ℚ
  | [] => 0
  | x :: xs => xs.foldl max x

/-- Python `int(...)`: truncation toward zero. -/
def pyInt (q : ℚ) : Int := if 0 ≤ q then ⌊q⌋ else ⌈q⌉

/-- Model of `np.percentile(a, p)` for a single rank `p`, with numpy's
default linear interpolation between order statistics: sort the elements,
take the virtual index `h = p * (n - 1) / 100`, and interpolate between
the order statistics at `⌊h⌋` and `⌊h⌋ + 1` (the upper index clamped to
the last element, which only matters when the fraction is zero). -/
def npPercentile (l : List ℚ) (p : ℚ) : ℚ :=
  let s := l.insertionSort (· ≤ ·)
  let h := p * ((s.length : ℚ) - 1) / 100
  let i := (⌊h⌋ : Int).toNat
  let g := h - ((⌊h⌋ : Int) : ℚ)
  let lo := s.getD i 0
  let hi := s.getD (i + 1) lo
  lo + g * (hi - lo)

/-- Model of `np.percentile(a, qs)` for an array of ranks: numpy maps the
single-rank computation over the ranks. -/
def npPercentileList (l : List ℚ) (ps : List ℚ) : List ℚ :=
  ps.map (npPercentile l)

/-- Embeds `_full_range(im, limit_args)`:
`return (np.min(im), np.max(im))`. -/
def _full_range (im : Image) (limit_args : ℚ × ℚ) : ℚ × ℚ :=
  (npMin im.flatten, npMax im.flatten)

/-- Embeds `_absolute_limit(im, limit_args)`: `return limit_args`. -/
def _absolute_limit (im : Image) (limit_args : ℚ × ℚ) : ℚ × ℚ :=
  limit_args

/-- Embeds `_percentile_limit(im, limit_args)`:
`return np.percentile(im, limit_args)`.  The two-element rank array comes
back as a two-element array of percentile values, used downstream as a
pair. -/
def _percentile_limit (im : Image) (limit_args : ℚ × ℚ) : ℚ × ℚ :=
  let r := npPercentileList im.flatten [limit_args.1, limit_args.2]
  (r.getD 0 0, r.getD 1 0)

/-- The type of the swappable limit functions `(image, params) -> (low, high)`. -/
abbrev LimitFunc := Image → ℚ × ℚ → ℚ × ℚ

/-- Explicit-state translation of `_full_range`: the body contains no
assignment to `im` or `limit_args` (`np.min`/`np.max` only read their
argument), so the translated procedure returns its result together with
the input image and params it leaves behind. -/
def fullRangeProc (im : Image) (limit_args : ℚ × ℚ) :
    (ℚ × ℚ) × Image × (ℚ × ℚ) :=
  ((npMin im.flatten, npMax im.flatten), im, limit_args)

/-- Explicit-state translation of `_absolute_limit`: the body is a bare
`return limit_args`, mutating nothing. -/
def absoluteLimitProc (im : Image) (limit_args : ℚ × ℚ) :
    (ℚ × ℚ) × Image × (ℚ × ℚ) :=
  (limit_args, im, limit_args)

/-- Explicit-state translation of `_percentile_limit`: `np.percentile`
reads `im` and allocates a fresh result array, mutating nothing. -/
def percentileLimitProc (im : Image) (limit_args : ℚ × ℚ) :
    (ℚ × ℚ) × Image × (ℚ × ℚ) :=
  (_percentile_limit im limit_args, im, limit_args)

/-- The folded minimum of `x :: xs` is one of `x :: xs`. -/
theorem foldl_min_mem (xs : List ℚ) : ∀ x : ℚ, xs.foldl min x ∈ x :: xs := by
  induction xs with
  | nil => intro x; simp
  | cons y ys ih =>
    intro x
    have h := ih (min x y)
    simp only [List.foldl_cons]
    rcases List.mem_cons.mp h with h1 | h1
    · rw [h1]
      rcases min_choice x y with h2 | h2 <;> rw [h2] <;> simp
    · simp [h1]

/-- The folded minimum of `x :: xs` is a lower bound for `x :: xs`. -/
theorem foldl_min_le (xs : List ℚ) :
    ∀ x y : ℚ, y ∈ x :: xs → xs.foldl min x ≤ y := by
  induction xs with
  | nil =>
    intro x y hy
    simp only [List.mem_singleton] at hy
    simp [hy]
  | cons z zs ih =>
    intro x y hy
    simp only [List.foldl_cons]
    have hbase := ih (min x z) (min x z) (List.mem_cons_self _ _)
    rcases List.mem_cons.mp hy with h1 | h1
    · rw [h1]
      exact le_trans hbase (min_le_left x z)
    · rcases List.mem_cons.mp h1 with h2 | h2
      · rw [h2]
        exact le_trans hbase (min_le_right x z)
      · exact ih (min x z) y (List.mem_cons.mpr (Or.inr h2))

/-- The folded maximum of `x :: xs` is one of `x :: xs`. -/
theorem foldl_max_mem (xs : List ℚ) : ∀ x : ℚ, xs.foldl max x ∈ x :: xs := by
  induction xs with
  | nil => intro x; simp
  | cons y ys ih =>
    intro x
    have h := ih (max x y)
    simp only [List.foldl_cons]
    rcases List.mem_cons.mp h with h1 | h1
    · rw [h1]
      rcases max_choice x y with h2 | h2 <;> rw [h2] <;> simp
    · simp [h1]

/-- The folded maximum of `x :: xs` is an upper bound for `x :: xs`. -/
theorem le_foldl_max (xs : List ℚ) :
    ∀ x y : ℚ, y ∈ x :: xs → y ≤ xs.foldl max x := by
  induction xs with
  | nil =>
    intro x y hy
    simp only [List.mem_singleton] at hy
    simp [hy]
  | cons z zs ih =>
    intro x y hy
    simp only [List.foldl_cons]
    have hbase := ih (max x z) (max x z) (List.mem_cons_self _ _)
    rcases List.mem_cons.mp hy with h1 | h1
    · rw [h1]
      exact le_trans (le_max_left x z) hbase
    · rcases List.mem_cons.mp h1 with h2 | h2
      · rw [h2]
        exact le_trans (le_max_right x z) hbase
      · exact ih (max x z) y (List.mem_cons.mpr (Or.inr h2))

/-- On a nonempty list, `npMin` returns an element of the list. -/
theorem npMin_mem (l : List ℚ) (h : l ≠ []) : npMin l ∈ l := by
  cases l with
  | nil => exact absurd rfl h
  | cons x xs => exact foldl_min_mem xs x

/-- On a nonempty list, `npMin` is a lower bound. -/
theorem npMin_le (l : List ℚ) (h : l ≠ []) : ∀ y ∈ l, npMin l ≤ y := by
  cases l with
  | nil => exact absurd rfl h
  | cons x xs => exact foldl_min_le xs x

/-- On a nonempty list, `npMax` returns an element of the list. -/
theorem npMax_mem (l : List ℚ) (h : l ≠ []) : npMax l ∈ l := by
  cases l with
  | nil => exact absurd rfl h
  | cons x xs => exact foldl_max_mem xs x

/-- On a nonempty list, `npMax` is an upper bound. -/
theorem le_npMax (l : List ℚ) (h : l ≠ []) : ∀ y ∈ l, y ≤ npMax l := by
  cases l with
  | nil => exact absurd rfl h
  | cons x xs => exact le_foldl_max xs x

/-- The mouse event fields `move_cb` and `click_cb` read: whether
`event.inaxes is self._im_ax`, and `event.xdata` / `event.ydata`
(which are `None` outside the data coordinate system). -/
structure MouseEvent where
  in_im_ax : Bool
  xdata : Option ℚ
  ydata : Option ℚ

/-- The state of a `CrossSection2DView`, holding the attributes the
source reads or writes together with the observable state of the
matplotlib artists it drives.  `data_dict` and `key_list` model
`self._data_dict` / `self._key_list` from the parent class, with keys
modelled as naturals. -/
structure ViewState where
  data_dict : ℕ → Image
  key_list : List ℕ
  limit_func : LimitFunc
  limit_args : ℚ × ℚ
  active : Bool
  cur_active : Bool
  imdata : Image
  im_data_displayed : Image
  im_clim : ℚ × ℚ
  ax_v_xlim : ℚ × ℚ
  ax_h_ylim : ℚ × ℚ
  ln_h_visible : Bool
  ln_v_visible : Bool
  ln_h_ydata : List ℚ
  ln_v_xdata : List ℚ
  vmin : Option ℚ
  vmax : Option ℚ
  row : Option Int
  col : Option Int

/-- Number of rows of the current image (`self._imdata.shape[0]`). -/
def ViewState.numrows (s : ViewState) : ℕ := s.imdata.length

/-- Number of columns of the current image (`self._imdata.shape[1]`). -/
def ViewState.numcols (s : ViewState) : ℕ := (s.imdata.headD []).length

/-- Row slice `imdata[r, :]`. -/
def rowSlice (im : Image) (r : ℕ) : List ℚ := im.getD r []

/-- Column slice `imdata[:, c]`. -/
def colSlice (im : Image) (c : ℕ) : List ℚ := im.map (fun line => line.getD c 0)

/-- Embeds `CrossSection2DView.__init__` (the state-relevant part).
Defaults follow the source: `limit_func = _full_range` when `None`,
`limit_args = [0, 100]` when `None`.  The initial image is
`self._data_dict[key_list[0]]`; `vlim = self._limit_func(init_image,
self._limit_args)` is applied to both side axes (unreversed);
`imshow` autoscales the color limits to the data range; the cut lines
start invisible with zero data; and no row/col is stashed
(`self._row = self._col = None`).  The matplotlib `Cursor` starts
active, matching `self._active = True`. -/
def construct (data_dict : ℕ → Image) (key_list : List ℕ)
    (limit_func0 : Option LimitFunc) (limit_args0 : Option (ℚ × ℚ)) :
    ViewState :=
  let limit_func := limit_func0.getD _full_range
  let limit_args := limit_args0.getD (0, 100)
  let init_image := data_dict (key_list.getD 0 0)
  let vlim := limit_func init_image limit_args
  { data_dict := data_dict
    key_list := key_list
    limit_func := limit_func
    limit_args := limit_args
    active := true
    cur_active := true
    imdata := init_image
    im_data_displayed := init_image
    im_clim := (npMin init_image.flatten, npMax init_image.flatten)
    ax_v_xlim := vlim
    ax_h_ylim := vlim
    ln_h_visible := false
    ln_v_visible := false
    ln_h_ydata := List.replicate (init_image.headD []).length 0
    ln_v_xdata := List.replicate init_image.length 0
    vmin := none
    vmax := none
    row := none
    col := none }

/-- Embeds `CrossSection2DView.update_color_limits(new_limits,
force_update)`: short-circuit when not forced and the stored limit args
equal the new ones; otherwise store the new args, recompute
`vlim = self._limit_func(self._imdata, self._limit_args)`, set the image
color limits to `vlim`, set the vertical cut axes x-limits to
`vlim[::-1]` (note the reversal) and the horizontal cut axes y-limits to
`vlim`. -/
def update_color_limits (s : ViewState) (new_limits : ℚ × ℚ)
    (force_update : Bool) : ViewState :=
  if force_update = false ∧ s.limit_args = new_limits then s
  else
    let s1 := { s with limit_args := new_limits }
    let vlim := s1.limit_func s1.imdata s1.limit_args
    { s1 with
      im_clim := vlim
      ax_v_xlim := (vlim.2, vlim.1)
      ax_h_ylim := vlim }

/-- Embeds `CrossSection2DView.set_limit_func(limit_func, new_limits)`:
store the new function, then `update_color_limits(new_limits,
force_update=True)`. -/
def set_limit_func (s : ViewState) (limit_func : LimitFunc)
    (new_limits : ℚ × ℚ) : ViewState :=
  update_color_limits { s with limit_func := limit_func } new_limits true

/-- Embeds `CrossSection2DView.replot()`: compute
`vmin, vmax = self._limit_func(self._imdata, self._limit_args)`, set the
vertical cut axes x-limits and horizontal cut axes y-limits to
`(vmin, vmax)`, push `self._imdata` to the displayed image, then call
`update_color_limits(self._limit_args, force_update=True)` (which
overwrites the axis limits it just set, reversing the vertical ones). -/
def replot (s : ViewState) : ViewState :=
  let vlim := s.limit_func s.imdata s.limit_args
  let s1 := { s with
    vmin := some vlim.1
    vmax := some vlim.2
    ax_v_xlim := (vlim.1, vlim.2)
    ax_h_ylim := (vlim.1, vlim.2)
    im_data_displayed := s.imdata }
  update_color_limits s1 s.limit_args true

/-- Embeds `CrossSection2DView.update_image(img_idx)`:
`self._imdata = self._data_dict[self._key_list[img_idx]]` and nothing
else.  (Python raises on an out-of-range index; theorems carry the
in-range hypothesis.) -/
def update_image (s : ViewState) (img_idx : ℕ) : ViewState :=
  { s with imdata := s.data_dict (s.key_list.getD img_idx 0) }

/-- Embeds the `active` property setter: `self._active = val` followed by
`self.cur.active = val`. -/
def active_set (s : ViewState) (val : Bool) : ViewState :=
  { s with active := val, cur_active := val }

/-- Embeds the `move_cb` closure: bail out when inactive or outside the
main image axes or when `xdata`/`ydata` is `None`; otherwise make both
cut lines visible, compute `col = int(x + 0.5)`, `row = int(y + 0.5)`,
and when `(row, col)` differs from the stash and lies inside the image
bounds, stash it and load the row/column slices into the cut lines
(the restore/draw/blit calls are pure drawing). -/
def move_cb (s : ViewState) (e : MouseEvent) : ViewState :=
  if s.active = false then s
  else if e.in_im_ax = false then s
  else
    match e.xdata, e.ydata with
    | some x, some y =>
      let s1 := { s with ln_h_visible := true, ln_v_visible := true }
      let col := pyInt (x + 1/2)
      let row := pyInt (y + 1/2)
      if some row ≠ s1.row ∨ some col ≠ s1.col then
        if 0 ≤ col ∧ col < (s1.numcols : Int) ∧
            0 ≤ row ∧ row < (s1.numrows : Int) then
          { s1 with
            col := some col
            row := some row
            ln_h_ydata := rowSlice s1.imdata row.toNat
            ln_v_xdata := colSlice s1.imdata col.toNat }
        else s1
      else s1
    | _, _ => s

/-- Embeds the `click_cb` closure: ignore clicks outside the main image
axes; otherwise toggle `self.active` (through the property setter, which
also sets the cursor's flag) and, when now active, replay the event
through `move_cb` (`self.cur.onmove` only redraws the cursor). -/
def click_cb (s : ViewState) (e : MouseEvent) : ViewState :=
  if e.in_im_ax = false then s
  else
    let s1 := active_set s (!s.active)
    if s1.active = true then move_cb s1 e else s1

/-- C3: for every non-empty 2D numeric image and any limit args,
`_full_range` returns the pair (minimum element of the image, maximum
element of the image); the limit args have no effect on the result. -/
theorem full_range_returns_min_max (im : Image) (a : ℚ × ℚ)
    (h : im.flatten ≠ []) :
    (_full_range im a).1 ∈ im.flatten ∧
    (∀ y ∈ im.flatten, (_full_range im a).1 ≤ y) ∧
    (_full_range im a).2 ∈ im.flatten ∧
    (∀ y ∈ im.flatten, y ≤ (_full_range im a).2) ∧
    (∀ b : ℚ × ℚ, _full_range im b = _full_range im a) :=
  ⟨npMin_mem _ h, npMin_le _ h, npMax_mem _ h, le_npMax _ h, fun _ => rfl⟩

/-- Witness for C3 at the image `[[3, 1], [2, 5]]`. -/
theorem full_range_returns_min_max_witness :
    (_full_range [[3, 1], [2, 5]] (0, 0)).1 ∈
      ([[3, 1], [2, 5]] : Image).flatten ∧
    _full_range [[3, 1], [2, 5]] (0, 0) = (1, 5) :=
  ⟨(full_range_returns_min_max [[3, 1], [2, 5]] (0, 0) (by decide)).1,
   by decide⟩

/-- C4: `_absolute_limit` returns exactly its params `(a, b)`,
independent of the image. -/
theorem absolute_limit_returns_args (im1 im2 : Image) (a b : ℚ) :
    _absolute_limit im1 (a, b) = (a, b) ∧
    _absolute_limit im2 (a, b) = (a, b) ∧
    _absolute_limit im1 (a, b) = _absolute_limit im2 (a, b) :=
  ⟨rfl, rfl, rfl⟩

/-- C5: for a non-empty image and percentile ranks in [0, 100],
`_percentile_limit` returns the pair of the `plo`-th and `phi`-th
percentile values of the image's elements under numpy's linear
interpolation between order statistics. -/
theorem percentile_limit_returns_percentiles (im : Image) (plo phi : ℚ)
    (h : im.flatten ≠ []) (h1 : 0 ≤ plo) (h2 : plo ≤ 100)
    (h3 : 0 ≤ phi) (h4 : phi ≤ 100) :
    _percentile_limit im (plo, phi) =
      (npPercentile im.flatten plo, npPercentile im.flatten phi) := rfl

/-- Witness for C5 at the image `[[1, 2], [3, 4]]` with ranks 25 and 100:
the 25th percentile interpolates to 7/4 and the 100th is the maximum 4. -/
theorem percentile_limit_returns_percentiles_witness :
    _percentile_limit [[1, 2], [3, 4]] (25, 100) =
      (npPercentile ([[1, 2], [3, 4]] : Image).flatten 25,
       npPercentile ([[1, 2], [3, 4]] : Image).flatten 100) ∧
    _percentile_limit [[1, 2], [3, 4]] (25, 100) = (7/4, 4) :=
  ⟨percentile_limit_returns_percentiles [[1, 2], [3, 4]] 25 100 (by decide)
      (by norm_num) (by norm_num) (by norm_num) (by norm_num),
   by norm_num [_percentile_limit, npPercentileList, npPercentile,
     List.insertionSort, List.orderedInsert] <;> decide⟩

/-- C7: the three limit functions are pure: two runs on equal inputs
yield equal results, and the explicit-state translations of their bodies
hand back the image and the params unchanged alongside the pure result. -/
theorem limit_funcs_pure (im im2 : Image) (a a2 : ℚ × ℚ)
    (him : im = im2) (ha : a = a2) :
    (_full_range im a = _full_range im2 a2 ∧
     _absolute_limit im a = _absolute_limit im2 a2 ∧
     _percentile_limit im a = _percentile_limit im2 a2) ∧
    (fullRangeProc im a = (_full_range im a, im, a) ∧
     absoluteLimitProc im a = (_absolute_limit im a, im, a) ∧
     percentileLimitProc im a = (_percentile_limit im a, im, a)) := by
  subst him
  subst ha
  exact ⟨⟨rfl, rfl, rfl⟩, rfl, rfl, rfl⟩

/-- Witness for C7 at the image `[[1, 2]]` and params `(0, 100)`. -/
theorem limit_funcs_pure_witness :
    _full_range [[1, 2]] (0, 100) = _full_range [[1, 2]] (0, 100) ∧
    fullRangeProc [[1, 2]] (0, 100) =
      (_full_range [[1, 2]] (0, 100), [[1, 2]], (0, 100)) :=
  ⟨((limit_funcs_pure [[1, 2]] [[1, 2]] (0, 100) (0, 100) rfl rfl).1).1,
   ((limit_funcs_pure [[1, 2]] [[1, 2]] (0, 100) (0, 100) rfl rfl).2).1⟩

/-- A concrete two-image data set for witnesses. -/
def sampleDD : ℕ → Image :=
  fun k => if k = 0 then [[0, 1], [2, 3]] else [[4, 5], [6, 7]]

/-- A concrete view over `sampleDD`, constructed with the source
defaults (`_full_range`, params `(0, 100)`). -/
def sampleState : ViewState := construct sampleDD [0, 1] none none

/-- C6: after `set_limit_func(f, L)` the stored limit function is `f`,
the stored limit params are `L`, and the color limits are recomputed as
`f(current image, L)` — for every `L`, including `L` equal to the
previously stored params, since the call forces the update. -/
theorem set_limit_func_swaps (s : ViewState) (f : LimitFunc) (L : ℚ × ℚ) :
    (set_limit_func s f L).limit_func = f ∧
    (set_limit_func s f L).limit_args = L ∧
    (set_limit_func s f L).im_clim = f s.imdata L := by
  unfold set_limit_func update_color_limits
  simp

/-- C8: `update_color_limits(new_limits)` with `force_update=False` and
`new_limits` equal to the stored limit params returns without changing
any field of the view. -/
theorem update_color_limits_noop (s : ViewState) (L : ℚ × ℚ)
    (h : s.limit_args = L) :
    update_color_limits s L false = s := by
  unfold update_color_limits
  rw [if_pos ⟨rfl, h⟩]

/-- Witness for C8: on the sample view the stored params are the default
`(0, 100)`, and passing them again unforced is the identity. -/
theorem update_color_limits_noop_witness :
    update_color_limits sampleState (0, 100) false = sampleState :=
  update_color_limits_noop sampleState (0, 100) rfl

/-- C9: `update_image(img_idx)` changes only the current-image
reference, setting it to the data stored under the `img_idx`-th key;
every other field of the view state is unchanged. -/
theorem update_image_frame (s : ViewState) (idx : ℕ)
    (h : idx < s.key_list.length) :
    (update_image s idx).imdata = s.data_dict (s.key_list.get ⟨idx, h⟩) ∧
    update_image s idx = { s with imdata := (update_image s idx).imdata } := by
  constructor
  · show s.data_dict (s.key_list.getD idx 0) = _
    rw [List.getD_eq_getElem?_getD, List.getElem?_eq_getElem h]
    rfl
  · rfl

/-- Witness for C9: switching the sample view to the second image. -/
theorem update_image_frame_witness :
    (update_image sampleState 1).imdata =
      sampleState.data_dict (sampleState.key_list.get ⟨1, by decide⟩) ∧
    update_image sampleState 1 =
      { sampleState with imdata := (update_image sampleState 1).imdata } :=
  update_image_frame sampleState 1 (by decide)

/-- `move_cb` never writes the active flag. -/
theorem move_cb_preserves_active (s : ViewState) (e : MouseEvent) :
    (move_cb s e).active = s.active := by
  unfold move_cb
  split
  · rfl
  split
  · rfl
  split
  · dsimp only
    split
    · split
      · rfl
      · rfl
    · rfl
  · rfl

/-- C10: a button press inside the main image axes toggles the view's
active flag; after any assignment through the `active` property setter
the toolkit cursor's active flag equals the view's; and while the view
is inactive, mouse-move events change no view state. -/
theorem active_toggle_cursor_sync (s : ViewState) (e : MouseEvent)
    (v : Bool) :
    (e.in_im_ax = true → (click_cb s e).active = !s.active) ∧
    (active_set s v).cur_active = (active_set s v).active ∧
    (s.active = false → move_cb s e = s) := by
  refine ⟨fun he => ?_, rfl, fun hin => ?_⟩
  · cases hs : s.active with
    | false => simp [click_cb, he, hs, active_set, move_cb_preserves_active]
    | true => simp [click_cb, he, hs, active_set]
  · unfold move_cb
    rw [if_pos hin]

/-- Witness for C10, starting from the sample view switched inactive:
the click reactivates it, the setter syncs the cursor, and a move event
on the inactive view is the identity. -/
theorem active_toggle_cursor_sync_witness :
    ((click_cb (active_set sampleState false)
        { in_im_ax := true, xdata := none, ydata := none }).active =
      !(active_set sampleState false).active) ∧
    ((active_set (active_set sampleState false) true).cur_active =
      (active_set (active_set sampleState false) true).active) ∧
    (move_cb (active_set sampleState false)
        { in_im_ax := true, xdata := none, ydata := none } =
      active_set sampleState false) := by
  have h := active_toggle_cursor_sync (active_set sampleState false)
    { in_im_ax := true, xdata := none, ydata := none } true
  exact ⟨h.1 rfl, h.2.1, h.2.2 rfl⟩

/-- C2: a mouse-move event whose cursor coordinates map to a (row, col)
outside the bounds of the current image leaves the stashed (row, col)
and both side-panel cut lines' data unchanged; `move_cb` is a total
function of the state and the event, so no error is raised. -/
theorem move_cb_ignores_out_of_bounds (s : ViewState) (e : MouseEvent)
    (x y : ℚ) (hx : e.xdata = some x) (hy : e.ydata = some y)
    (hob : ¬(0 ≤ pyInt (x + 1/2) ∧ pyInt (x + 1/2) < (s.numcols : Int) ∧
             0 ≤ pyInt (y + 1/2) ∧ pyInt (y + 1/2) < (s.numrows : Int))) :
    (move_cb s e).row = s.row ∧ (move_cb s e).col = s.col ∧
    (move_cb s e).ln_h_ydata = s.ln_h_ydata ∧
    (move_cb s e).ln_v_xdata = s.ln_v_xdata := by
  unfold move_cb
  split
  · exact ⟨rfl, rfl, rfl, rfl⟩
  split
  · exact ⟨rfl, rfl, rfl, rfl⟩
  rw [hx, hy]
  dsimp only
  split
  · split
    · rename_i hin
      exact absurd hin hob
    · exact ⟨rfl, rfl, rfl, rfl⟩
  · exact ⟨rfl, rfl, rfl, rfl⟩

/-- Witness for C2: on the sample view's 2×2 image, a cursor at
`x = 10, y = 0` maps to column 10, which is out of bounds. -/
theorem move_cb_ignores_out_of_bounds_witness :
    (move_cb sampleState
        { in_im_ax := true, xdata := some 10, ydata := some 0 }).row =
      sampleState.row ∧
    (move_cb sampleState
        { in_im_ax := true, xdata := some 10, ydata := some 0 }).col =
      sampleState.col ∧
    (move_cb sampleState
        { in_im_ax := true, xdata := some 10, ydata := some 0 }).ln_h_ydata =
      sampleState.ln_h_ydata ∧
    (move_cb sampleState
        { in_im_ax := true, xdata := some 10, ydata := some 0 }).ln_v_xdata =
      sampleState.ln_v_xdata :=
  move_cb_ignores_out_of_bounds sampleState
    { in_im_ax := true, xdata := some 10, ydata := some 0 } 10 0 rfl rfl
    (by norm_num [pyInt, sampleState, construct, sampleDD,
      ViewState.numcols, ViewState.numrows])

/-- C1 (amended): after construction both side-panel ranges equal the
(low, high) pair returned by the current limit function on the current
image and params.  After every non-short-circuited `update_color_limits`
— and hence after `replot` and `set_limit_func`, which force it — the
horizontal cut axes' y-limits equal the freshly computed (low, high)
pair while the vertical cut axes' x-limits equal the reversed pair
(high, low) (`set_xlim(*vlim[::-1])`).  `update_image` changes neither
range, so after it they still reflect the previously used image. -/
theorem side_panel_axis_ranges (dd : ℕ → Image) (kl : List ℕ)
    (f0 : Option LimitFunc) (a0 : Option (ℚ × ℚ)) (s : ViewState)
    (L : ℚ × ℚ) (fu : Bool) (f : LimitFunc) (idx : ℕ)
    (hguard : ¬(fu = false ∧ s.limit_args = L)) :
    ((construct dd kl f0 a0).ax_h_ylim =
       (construct dd kl f0 a0).limit_func (construct dd kl f0 a0).imdata
         (construct dd kl f0 a0).limit_args ∧
     (construct dd kl f0 a0).ax_v_xlim = (construct dd kl f0 a0).ax_h_ylim) ∧
    ((update_color_limits s L fu).ax_h_ylim = s.limit_func s.imdata L ∧
     (update_color_limits s L fu).ax_v_xlim = (s.limit_func s.imdata L).swap) ∧
    ((replot s).ax_h_ylim = s.limit_func s.imdata s.limit_args ∧
     (replot s).ax_v_xlim = (s.limit_func s.imdata s.limit_args).swap) ∧
    ((set_limit_func s f L).ax_h_ylim = f s.imdata L ∧
     (set_limit_func s f L).ax_v_xlim = (f s.imdata L).swap) ∧
    ((update_image s idx).ax_h_ylim = s.ax_h_ylim ∧
     (update_image s idx).ax_v_xlim = s.ax_v_xlim) := by
  refine ⟨⟨rfl, rfl⟩, ?_, ?_, ?_, ⟨rfl, rfl⟩⟩
  · unfold update_color_limits
    rw [if_neg hguard]
    exact ⟨rfl, rfl⟩
  · simp [replot, update_color_limits, Prod.swap]
  · simp [set_limit_func, update_color_limits, Prod.swap]

/-- Witness for C1 (amended), at the sample view with absolute limits
`(1, 3)` (distinct from the stored params, so the unforced update does
not short-circuit). -/
theorem side_panel_axis_ranges_witness :
    ((construct sampleDD [0, 1] none none).ax_h_ylim =
       (construct sampleDD [0, 1] none none).limit_func
         (construct sampleDD [0, 1] none none).imdata
         (construct sampleDD [0, 1] none none).limit_args ∧
     (construct sampleDD [0, 1] none none).ax_v_xlim =
       (construct sampleDD [0, 1] none none).ax_h_ylim) ∧
    ((update_color_limits sampleState (1, 3) false).ax_h_ylim =
       sampleState.limit_func sampleState.imdata (1, 3) ∧
     (update_color_limits sampleState (1, 3) false).ax_v_xlim =
       (sampleState.limit_func sampleState.imdata (1, 3)).swap) ∧
    ((replot sampleState).ax_h_ylim =
       sampleState.limit_func sampleState.imdata sampleState.limit_args ∧
     (replot sampleState).ax_v_xlim =
       (sampleState.limit_func sampleState.imdata sampleState.limit_args).swap) ∧
    ((set_limit_func sampleState _absolute_limit (1, 3)).ax_h_ylim =
       _absolute_limit sampleState.imdata (1, 3) ∧
     (set_limit_func sampleState _absolute_limit (1, 3)).ax_v_xlim =
       (_absolute_limit sampleState.imdata (1, 3)).swap) ∧
    ((update_image sampleState 1).ax_h_ylim = sampleState.ax_h_ylim ∧
     (update_image sampleState 1).ax_v_xlim = sampleState.ax_v_xlim) :=
  side_panel_axis_ranges sampleDD [0, 1] none none sampleState (1, 3) false
    _absolute_limit 1 (by decide)

/-- Sample view for the C1 counterexample: a single 2×1 image with
distinct minimum 0 and maximum 1, default full-range limits. -/
def c1State : ViewState := construct (fun _ => [[0], [1]]) [0] none none

/-- C1 as stated is refuted here: after the operation `replot`, the
vertical cut axes' x-limits are the reversed pair (1, 0), not the
(low, high) = (0, 1) pair the current limit function returns on the
current image and params. -/
theorem side_panel_axis_ranges_counterexample :
    ¬((replot c1State).ax_v_xlim =
      (replot c1State).limit_func (replot c1State).imdata
        (replot c1State).limit_args) := by
  decide
